import Mathlib

/-
Verification of the promtimer stats-source module (src/promtimer/cbstats.py).

The file is a shallow embedding of the pure logic of cbstats.py:
line-oriented parsing of the couchbase.log configuration dump,
data-source name disambiguation, the prometheus time-range estimate,
live-node discovery, and the memoized bucket cache of CBCollect.
File IO and HTTP are modelled by passing the file lines, the parsed
shard metadata, or the request outcome as explicit arguments.
-/

deriving instance DecidableEq for Except

/-! ## Python string primitives -/

/-- Whitespace characters recognised by Python str.strip, str.rstrip and
the regex class backslash-s: space, tab, newline, carriage return,
vertical tab and form feed. -/
def pyIsSpace (c : Char) : Bool :=
  c = ' ' || c = '\t' || c = '\n' || c = '\r' || c = '\x0b' || c = '\x0c'

/-- Python str.rstrip on a character list: drop trailing whitespace. -/
def rstripChars (l : List Char) : List Char :=
  (l.reverse.dropWhile pyIsSpace).reverse

/-- Python str.lstrip on a character list: drop leading whitespace. -/
def lstripChars (l : List Char) : List Char :=
  l.dropWhile pyIsSpace

/-- Python str.strip on a character list: drop whitespace on both ends. -/
def stripChars (l : List Char) : List Char :=
  rstripChars (lstripChars l)

/-- Fuel-driven worker for pyReplace; the fuel is the length of the
scanned text, which bounds the number of steps, so the recursion is
structural and concrete calls reduce inside the kernel. -/
def pyReplaceGo (fuel : Nat) (l pat repl : List Char) : List Char :=
  match fuel, l with
  | 0, l => l
  | _ + 1, [] => []
  | fuel + 1, c :: rest =>
    if pat ≠ [] ∧ pat.isPrefixOf (c :: rest) then
      repl ++ pyReplaceGo fuel ((c :: rest).drop pat.length) pat repl
    else
      c :: pyReplaceGo fuel rest pat repl

/-- Python str.replace for a non-empty pattern: scan left to right and
replace every non-overlapping occurrence of pat by repl.  Call sites in
cbstats.py only ever pass non-empty patterns; for an empty pattern this
returns the input unchanged. -/
def pyReplace (l pat repl : List Char) : List Char :=
  pyReplaceGo l.length l pat repl

/-- Python str.split on a single separator character: empty pieces are
kept, and splitting the empty string yields one empty piece. -/
def splitChar (sep : Char) : List Char → List (List Char)
  | [] => [[]]
  | c :: rest =>
    let r := splitChar sep rest
    if c = sep then [] :: r
    else
      match r with
      | h :: t => (c :: h) :: t
      | [] => [[c]]

/-- Ordering used to model Python sorted on strings: lexicographic by
code point, stated on the character lists (by String.le_iff_toList_le
this is exactly the string order; the character-list form is used so
that concrete instances evaluate inside the kernel). -/
def pyStrLeProp (a b : String) : Prop := a.toList ≤ b.toList

instance : DecidableRel pyStrLeProp := fun a b =>
  inferInstanceAs (Decidable (a.toList ≤ b.toList))

/-- Python sorted on a list of strings: a stable ascending sort.  Any
stable sort computes the same function, so insertion sort is used. -/
def pySorted (l : List String) : List String := l.insertionSort pyStrLeProp

/-! ## The configuration-dump parsers

The dict returned by each parser in the Python source has the single
key buckets; it is modelled as a one-field structure. -/

/-- Result of one configuration-dump parser: the dict with key buckets
returned by parse_couchbase_ns_config and friends. -/
structure Config where
  buckets : List String
  deriving DecidableEq, Repr

/-- Test for the regex caret-space-brace-dotstar-comma-dollar used by
parse_couchbase_ns_config to spot the start of an unrelated sibling
section: a space, an opening brace, any characters other than newline,
and a final comma. -/
def matchSiblingSection (line : List Char) : Bool :=
  match line with
  | ' ' :: '\x7b' :: rest =>
    rest ≠ [] && rest.getLast? = some ',' && rest.dropLast.all (· ≠ '\n')
  | _ => false

/-- Match for the bucket-name line regex of parse_couchbase_ns_config:
four spaces, one character that is a space or an opening square bracket,
an opening brace, a double quote, a captured group of characters other
than newline, then a closing double quote and comma at end of line.
Returns the captured bucket name. -/
def matchNsBucketLine (line : List Char) : Option (List Char) :=
  match line with
  | ' ' :: ' ' :: ' ' :: ' ' :: c :: '\x7b' :: '"' :: rest =>
    if (c = ' ' || c = '[') && ['"', ','].isSuffixOf rest
        && (rest.take (rest.length - 2)).all (· ≠ '\n') then
      some (rest.take (rest.length - 2))
    else
      none
  | _ => none

/-- Line loop of parse_couchbase_ns_config.  State: the remaining lines,
the in_config and in_buckets flags, the section divider count, and the
buckets accumulated so far; returns the accumulated buckets when the
loop breaks or the file ends. -/
def nsConfigLoop : List String → Bool → Bool → Nat → List String → List String
  | [], _, _, _, buckets => buckets
  | full_line :: rest, in_config, in_buckets, divider_count, buckets =>
    let line := rstripChars full_line.toList
    if !in_config ∧ rstripChars line = "Couchbase config".toList then
      nsConfigLoop rest true in_buckets divider_count buckets
    else if in_config then
      let isDivider := "==================".toList.isPrefixOf (stripChars line)
      let divider_count' := if isDivider then divider_count + 1 else divider_count
      if isDivider ∧ divider_count' = 2 then buckets
      else if !in_buckets ∧ line = " \x7bbuckets,".toList then
        nsConfigLoop rest true true divider_count' buckets
      else if in_buckets then
        if matchSiblingSection line then buckets
        else
          match matchNsBucketLine line with
          | some b => nsConfigLoop rest true true divider_count' (buckets ++ [⟨b⟩])
          | none => nsConfigLoop rest true true divider_count' buckets
      else nsConfigLoop rest true in_buckets divider_count' buckets
    else nsConfigLoop rest in_config in_buckets divider_count buckets

/-- Embedding of parse_couchbase_ns_config: the legacy ns_config format.
The argument is the list of lines of couchbase.log. -/
def parse_couchbase_ns_config (lines : List String) : Config :=
  ⟨pySorted (nsConfigLoop lines false false 0 [])⟩

/-- Shared tail of both chronicle parsers: remove spaces, remove double
quotes, then split on commas (bucket_list.replace then split in the
Python source). -/
def parseBucketList (bucket_list : List Char) : List String :=
  (splitChar ',' (pyReplace (pyReplace bucket_list [' '] []) ['"'] [])).map
    (fun l => ⟨l⟩)

/-- Line loop of parse_couchbase_chronicle_older_version.  State: the
remaining lines, in_config, in_buckets, and the accumulated bucket_list
string; returns the final bucket_list. -/
def chronicleOldLoop : List String → Bool → Bool → List Char → List Char
  | [], _, _, bucket_list => bucket_list
  | full_line :: rest, in_config, in_buckets, bucket_list =>
    let line := rstripChars full_line.toList
    if !in_config ∧ line = "Chronicle config".toList then
      chronicleOldLoop rest true in_buckets bucket_list
    else if in_config then
      let st :=
        if !in_buckets then
          if " \x7bbucket_names,".toList.isPrefixOf line then
            (true, pyReplace line " \x7bbucket_names,[".toList [])
          else (false, [])
        else (true, line)
      if st.2 ≠ [] then
        if [']', '\x7d', ','].isSuffixOf st.2 then
          bucket_list ++ st.2.take (st.2.length - 3)
        else chronicleOldLoop rest true st.1 (bucket_list ++ st.2)
      else chronicleOldLoop rest true st.1 bucket_list
    else chronicleOldLoop rest in_config in_buckets bucket_list

/-- Embedding of parse_couchbase_chronicle_older_version: the Chronicle
config format whose bucket list ends with a bracket-brace-comma closer. -/
def parse_couchbase_chronicle_older_version (lines : List String) : Config :=
  let bucket_list := chronicleOldLoop lines false false []
  let buckets := if bucket_list ≠ [] then parseBucketList bucket_list else []
  ⟨pySorted buckets⟩

/-- Match for the opening regex of parse_couchbase_chronicle: optional
leading whitespace, the literal brace-bucket_names-comma-brace-bracket
marker, and a captured group of the characters that follow on the line
(a dot-star group, which stops at a newline).  Returns the capture. -/
def matchChronicleOpen (line : List Char) : Option (List Char) :=
  let marker := "\x7bbucket_names,\x7b[".toList
  let r := line.dropWhile pyIsSpace
  if marker.isPrefixOf r then
    some ((r.drop marker.length).takeWhile (· ≠ '\n'))
  else none

/-- Line loop of parse_couchbase_chronicle.  Faithful to the source,
including the statement that resets bucket_list to the empty string at
the start of every in-config iteration, so only text gathered in the
final iteration (the one seeing the closing bracket, whose prefix before
the bracket is returned) survives. -/
def chronicleLoop : List String → Bool → Bool → List Char → List Char
  | [], _, _, bucket_list => bucket_list
  | full_line :: rest, in_config, in_buckets, bucket_list =>
    let line := rstripChars full_line.toList
    if !in_config ∧ line = "Chronicle dump".toList then
      chronicleLoop rest true in_buckets bucket_list
    else if in_config then
      let st :=
        if !in_buckets then
          match matchChronicleOpen line with
          | some g2 => (true, g2)
          | none => (false, [])
        else (true, line)
      if st.2 ≠ [] then
        if st.2.contains ']' then st.2.takeWhile (· ≠ ']')
        else chronicleLoop rest true st.1 st.2
      else chronicleLoop rest true st.1 []
    else chronicleLoop rest in_config in_buckets bucket_list

/-- Embedding of parse_couchbase_chronicle: the Chronicle dump format. -/
def parse_couchbase_chronicle (lines : List String) : Config :=
  let bucket_list := chronicleLoop lines false false []
  let buckets := if bucket_list ≠ [] then parseBucketList bucket_list else []
  ⟨pySorted buckets⟩

/-- Embedding of parse_couchbase_log: try the Chronicle dump parser,
then the older Chronicle config parser, then the legacy ns_config
parser, keeping the first configuration whose bucket list is not empty. -/
def parse_couchbase_log (lines : List String) : Config :=
  let config := parse_couchbase_chronicle lines
  if config.buckets = [] then
    let config2 := parse_couchbase_chronicle_older_version lines
    if config2.buckets = [] then parse_couchbase_ns_config lines else config2
  else config

/-! ## Data-source name disambiguation -/

/-- The four captured groups of the directory-name regex of
get_data_source_names:
cbcollect_info_ns_ digits at-sign dotstar underscore digits dash digits. -/
structure MatchGroups where
  nodeId : String
  hostFragment : String
  startStamp : String
  endStamp : String
  deriving DecidableEq, Repr

/-- Match of the tail regex underscore-digits-dash-digits as a prefix of
the remaining characters (re.match does not anchor the end, so trailing
characters are allowed after the final greedy digit run). -/
def cbcollectRegexTail (l : List Char) : Option (List Char × List Char) :=
  match l with
  | '_' :: rest =>
    let d3 := rest.takeWhile Char.isDigit
    if d3 = [] then none
    else
      match rest.drop d3.length with
      | '-' :: rest2 =>
        let d4 := rest2.takeWhile Char.isDigit
        if d4 = [] then none else some (d3, d4)
      | _ => none
  | _ => none

/-- Backtracking search for the greedy dotstar group of the directory
regex: the longest newline-free split of the remaining characters whose
suffix matches the underscore-digits-dash-digits tail. -/
def cbcollectHostSplit (r : List Char) : Option (List Char × List Char × List Char) :=
  ((List.range (r.length + 1)).reverse).findSome? (fun i =>
    let a := r.take i
    if a.contains '\n' then none
    else (cbcollectRegexTail (r.drop i)).map (fun p => (a, p.1, p.2)))

/-- Embedding of re.match of the pattern
cbcollect_info_ns_ group(digits) at-sign group(dotstar) underscore
group(digits) dash group(digits) against a directory name, anchored at
the start only, with Python greedy semantics. -/
def matchCbcollectName (s : String) : Option MatchGroups :=
  let l := s.toList
  let pre := "cbcollect_info_ns_".toList
  if pre.isPrefixOf l then
    let r := l.drop pre.length
    let d1 := r.takeWhile Char.isDigit
    if d1 = [] then none
    else
      match r.drop d1.length with
      | '@' :: r2 =>
        match cbcollectHostSplit r2 with
        | some (a, d3, d4) => some ⟨⟨d1⟩, ⟨a⟩, ⟨d3⟩, ⟨d4⟩⟩
        | none => none
      | _ => none
  else none

/-- Name format one of get_data_source_names: group 1 alone. -/
def format1 (g : MatchGroups) : String := g.hostFragment

/-- Name format two: ns_ group0 at-sign group1. -/
def format2 (g : MatchGroups) : String :=
  "ns_" ++ g.nodeId ++ "@" ++ g.hostFragment

/-- Name format three: group1 dash group2 dash group3. -/
def format3 (g : MatchGroups) : String :=
  g.hostFragment ++ "-" ++ g.startStamp ++ "-" ++ g.endStamp

/-- Name format four: ns_ group0 dash group1 dash group2 dash group3. -/
def format4 (g : MatchGroups) : String :=
  "ns_" ++ g.nodeId ++ "-" ++ g.hostFragment ++ "-" ++ g.startStamp
    ++ "-" ++ g.endStamp

/-- The ordered list of name formats tried by get_data_source_names. -/
def name_formats : List (MatchGroups → String) :=
  [format1, format2, format3, format4]

/-- Name given to one directory under one format: if the directory name
matches the regex the format is applied to the captured groups,
otherwise the raw directory name is used. -/
def renderName (fmt : MatchGroups → String) (d : String) : String :=
  match matchCbcollectName d with
  | some g => fmt g
  | none => d

/-- Embedding of CBCollect.try_get_data_source_names: render every
directory under the given format and keep the list only when it has no
duplicates (the len of set versus len of list check). -/
def try_get_data_source_names (cbcollect_dirs : List String)
    (fmt : MatchGroups → String) : Option (List String) :=
  let data_sources := cbcollect_dirs.map (renderName fmt)
  if data_sources.Nodup then some data_sources else none

/-- Format-trying loop of CBCollect.get_data_source_names: the first
format whose rendering is truthy (a non-empty, duplicate-free list)
wins, otherwise the raw directory names are returned. -/
def get_data_source_names_go (cbcollect_dirs : List String) :
    List (MatchGroups → String) → List String
  | [] => cbcollect_dirs
  | fmt :: rest =>
    match try_get_data_source_names cbcollect_dirs fmt with
    | some result =>
      if result = [] then get_data_source_names_go cbcollect_dirs rest
      else result
    | none => get_data_source_names_go cbcollect_dirs rest

/-- Embedding of CBCollect.get_data_source_names. -/
def get_data_source_names (cbcollect_dirs : List String) : List String :=
  get_data_source_names_go cbcollect_dirs name_formats

/-! ## Prometheus time-range estimate -/

/-- Python exceptions that the embedded fragments can raise. -/
inductive PyErr
  | valueError
  deriving DecidableEq, Repr

/-- One meta.json shard metadata file of the stats snapshot: the stored
minTime and maxTime fields, in milliseconds. -/
structure ShardMeta where
  minTime : Int
  maxTime : Int
  deriving DecidableEq, Repr

/-- Python min of a list: none on the empty list, modelling the
ValueError that min raises there, else the fold of the binary min. -/
def pyMin (l : List ℚ) : Option ℚ :=
  match l with
  | [] => none
  | a :: rest => some (rest.foldl min a)

/-- Python max of a list, as pyMin. -/
def pyMax (l : List ℚ) : Option ℚ :=
  match l with
  | [] => none
  | a :: rest => some (rest.foldl max a)

/-- Embedding of get_prometheus_times.  The directory walk that loads
every meta.json below stats_snapshot is modelled by passing the parsed
shard metadata list; each entry contributes minTime over 1000 and
maxTime over 1000 (milliseconds to seconds, modelled exactly in the
rationals).  An empty metadata list makes min raise ValueError, which
nothing in the module catches. -/
def get_prometheus_times (metas : List ShardMeta) : Except PyErr (ℚ × ℚ) :=
  let min_times := metas.map (fun m => (m.minTime : ℚ) / 1000)
  let max_times := metas.map (fun m => (m.maxTime : ℚ) / 1000)
  match pyMin min_times, pyMax max_times with
  | some mn, some mx => .ok (mn, mx)
  | _, _ => .error .valueError

/-- Embedding of CBCollect.get_min_and_max_times: the method returns
get_prometheus_times of its cbcollect directory unchanged, with no
handler around it, so an exception from the estimator propagates. -/
def CBCollect.get_min_and_max_times (metas : List ShardMeta) :
    Except PyErr (ℚ × ℚ) :=
  get_prometheus_times metas

/-! ## Live server nodes -/

/-- One bucket object of the buckets-listing JSON response: only the
name field is read. -/
structure BucketInfo where
  name : String
  deriving DecidableEq, Repr

/-- Embedding of ServerNode.get_buckets.  The HTTP request and JSON
decode are modelled by the response argument: ok carries the decoded
bucket array, error carries the OSError message of a network or
authentication failure.  The method body has no try-except, so an error
outcome passes through unchanged. -/
def ServerNode.get_buckets (response : Except String (List BucketInfo)) :
    Except String (List String) :=
  match response with
  | .error e => .error e
  | .ok bucket_list => .ok (bucket_list.map BucketInfo.name)

/-- The services dict of one nodesExt entry: only the mgmt port is
read. -/
structure Services where
  mgmt : Nat
  deriving DecidableEq, Repr

/-- One entry of the nodesExt array of the nodeServices response: the
hostname key is optional (dict.get returns None when absent). -/
structure NodeExt where
  hostname : Option String
  services : Services
  deriving DecidableEq, Repr

/-- The state of one constructed ServerNode: cluster host, management
port and credentials. -/
structure ServerNode where
  cluster_host : String
  port : Nat
  user : String
  password : String
  deriving DecidableEq, Repr

/-- Body of the nodesExt loop of ServerNode.get_stats_sources: the host
falls back to 127.0.0.1 when the hostname key is absent, and the port
is the mgmt entry of the services dict. -/
def mkServerNode (user password : String) (node : NodeExt) : ServerNode :=
  let host :=
    match node.hostname with
    | none => "127.0.0.1"
    | some h => h
  { cluster_host := host, port := node.services.mgmt,
    user := user, password := password }

/-- Embedding of ServerNode.get_stats_sources.  The topology request is
modelled by the response argument: ok carries the decoded nodesExt
array; the except-OSError handler turns an error into the empty source
list. -/
def ServerNode.get_stats_sources (response : Except String (List NodeExt))
    (user password : String) : List ServerNode :=
  match response with
  | .ok nodes => nodes.map (mkServerNode user password)
  | .error _ => []

/-! ## The memoized bucket cache of CBCollect -/

/-- One call of CBCollect.get_buckets, made state-passing: the argument
is the cached config field (None before the first call), the result is
the returned bucket list, the updated cache field, and a flag recording
whether parse_couchbase_log ran during this call. -/
def CBCollect.get_buckets_step (log_lines : List String)
    (config : Option Config) : List String × Option Config × Bool :=
  match config with
  | none =>
    let c := parse_couchbase_log log_lines
    (c.buckets, some c, true)
  | some c => (c.buckets, some c, false)

/-! ## Helper lemmas -/

/-- The sort used by the parsers yields a list sorted by the string
order. -/
theorem pySorted_sorted (l : List String) : List.Sorted (· ≤ ·) (pySorted l) := by
  haveI : IsTotal String pyStrLeProp := ⟨by
    intro a b
    rcases le_total a b with h | h
    · exact Or.inl (String.le_iff_toList_le.mp h)
    · exact Or.inr (String.le_iff_toList_le.mp h)⟩
  haveI : IsTrans String pyStrLeProp := ⟨by
    intro a b c hab hbc
    exact String.le_iff_toList_le.mp
      (le_trans (String.le_iff_toList_le.mpr hab)
        (String.le_iff_toList_le.mpr hbc))⟩
  have h := List.sorted_insertionSort pyStrLeProp l
  exact h.imp (fun hab => String.le_iff_toList_le.mpr hab)

/-- Sorting the empty list yields the empty list. -/
theorem pySorted_nil : pySorted [] = [] := rfl

/-- Dropping a prefix by a predicate twice is the same as once. -/
theorem dropWhile_dropWhile (p : Char → Bool) (l : List Char) :
    (l.dropWhile p).dropWhile p = l.dropWhile p := by
  induction l with
  | nil => rfl
  | cons c t ih =>
    by_cases h : p c
    · simp [List.dropWhile_cons, h, ih]
    · simp [List.dropWhile_cons, h]

/-- Python rstrip is idempotent. -/
theorem rstripChars_idem (l : List Char) :
    rstripChars (rstripChars l) = rstripChars l := by
  simp only [rstripChars, List.reverse_reverse]
  rw [dropWhile_dropWhile]

/-- If no line of the file rstrips to the Chronicle dump marker, the
chronicle loop never enters the config section and returns its
accumulator unchanged. -/
theorem chronicleLoop_no_marker (lines : List String) (ib : Bool) (bl : List Char)
    (h : ∀ l ∈ lines, rstripChars l.toList ≠ "Chronicle dump".toList) :
    chronicleLoop lines false ib bl = bl := by
  induction lines with
  | nil => rfl
  | cons l rest ih =>
    have hl := h l (List.mem_cons_self l rest)
    rw [chronicleLoop]
    rw [if_neg (by simpa using hl), if_neg (by simp)]
    exact ih (fun x hx => h x (List.mem_cons_of_mem l hx))

/-- If no line of the file rstrips to the Chronicle config marker, the
older chronicle loop returns its accumulator unchanged. -/
theorem chronicleOldLoop_no_marker (lines : List String) (ib : Bool) (bl : List Char)
    (h : ∀ l ∈ lines, rstripChars l.toList ≠ "Chronicle config".toList) :
    chronicleOldLoop lines false ib bl = bl := by
  induction lines with
  | nil => rfl
  | cons l rest ih =>
    have hl := h l (List.mem_cons_self l rest)
    rw [chronicleOldLoop]
    rw [if_neg (by simpa using hl), if_neg (by simp)]
    exact ih (fun x hx => h x (List.mem_cons_of_mem l hx))

/-- If no line of the file rstrips to the Couchbase config marker, the
ns_config loop returns its accumulator unchanged. -/
theorem nsConfigLoop_no_marker (lines : List String) (ib : Bool) (dc : Nat)
    (buckets : List String)
    (h : ∀ l ∈ lines, rstripChars l.toList ≠ "Couchbase config".toList) :
    nsConfigLoop lines false ib dc buckets = buckets := by
  induction lines with
  | nil => rfl
  | cons l rest ih =>
    have hl := h l (List.mem_cons_self l rest)
    rw [nsConfigLoop]
    rw [if_neg (by simp only [rstripChars_idem]; simpa using hl), if_neg (by simp)]
    exact ih (fun x hx => h x (List.mem_cons_of_mem l hx))

/-! ## Claim theorems -/

/-- C1: parse_couchbase_log runs the three sub-parsers in fixed
priority order (Chronicle dump, then Chronicle config, then legacy
ns_config) and returns the result of the first whose bucket list is not
empty; and when none of the three section markers occurs in the file it
returns an empty bucket list as an ordinary value, not an error. -/
theorem parse_couchbase_log_priority (lines : List String) :
    ((parse_couchbase_chronicle lines).buckets ≠ [] →
      parse_couchbase_log lines = parse_couchbase_chronicle lines) ∧
    ((parse_couchbase_chronicle lines).buckets = [] →
      (parse_couchbase_chronicle_older_version lines).buckets ≠ [] →
      parse_couchbase_log lines = parse_couchbase_chronicle_older_version lines) ∧
    ((parse_couchbase_chronicle lines).buckets = [] →
      (parse_couchbase_chronicle_older_version lines).buckets = [] →
      parse_couchbase_log lines = parse_couchbase_ns_config lines) ∧
    ((∀ l ∈ lines,
        rstripChars l.toList ≠ "Chronicle dump".toList ∧
        rstripChars l.toList ≠ "Chronicle config".toList ∧
        rstripChars l.toList ≠ "Couchbase config".toList) →
      (parse_couchbase_log lines).buckets = []) := by
  refine ⟨?_, ?_, ?_, ?_⟩
  · intro h1
    simp only [parse_couchbase_log, if_neg h1]
  · intro h1 h2
    simp only [parse_couchbase_log, if_pos h1, if_neg h2]
  · intro h1 h2
    simp only [parse_couchbase_log, if_pos h1, if_pos h2]
  · intro h
    have hc : parse_couchbase_chronicle lines = ⟨[]⟩ := by
      have hl := chronicleLoop_no_marker lines false [] (fun x hx => (h x hx).1)
      simp [parse_couchbase_chronicle, hl, pySorted_nil]
    have ho : parse_couchbase_chronicle_older_version lines = ⟨[]⟩ := by
      have hl := chronicleOldLoop_no_marker lines false [] (fun x hx => (h x hx).2.1)
      simp [parse_couchbase_chronicle_older_version, hl, pySorted_nil]
    have hn : parse_couchbase_ns_config lines = ⟨[]⟩ := by
      have hl := nsConfigLoop_no_marker lines false 0 [] (fun x hx => (h x hx).2.2)
      simp [parse_couchbase_ns_config, hl, pySorted_nil]
    simp [parse_couchbase_log, hc, ho, hn]

/-- Witness for C1: a file with none of the three markers yields the
empty bucket list. -/
theorem parse_couchbase_log_priority_witness :
    (parse_couchbase_log ["hello", "world"]).buckets = [] :=
  (parse_couchbase_log_priority ["hello", "world"]).2.2.2 (by decide)

/-- C8: every bucket list produced by the three sub-parsers, and hence
by parse_couchbase_log, is sorted in the lexicographic string order,
and the empty list is an ordinary returned value. -/
theorem parse_couchbase_log_buckets_sorted (lines : List String) :
    List.Sorted (· ≤ ·) (parse_couchbase_ns_config lines).buckets ∧
    List.Sorted (· ≤ ·) (parse_couchbase_chronicle_older_version lines).buckets ∧
    List.Sorted (· ≤ ·) (parse_couchbase_chronicle lines).buckets ∧
    List.Sorted (· ≤ ·) (parse_couchbase_log lines).buckets ∧
    parse_couchbase_log [] = ⟨[]⟩ := by
  have hns : ∀ ls : List String,
      List.Sorted (· ≤ ·) (parse_couchbase_ns_config ls).buckets :=
    fun ls => pySorted_sorted _
  have hold : ∀ ls : List String,
      List.Sorted (· ≤ ·) (parse_couchbase_chronicle_older_version ls).buckets :=
    fun ls => pySorted_sorted _
  have hch : ∀ ls : List String,
      List.Sorted (· ≤ ·) (parse_couchbase_chronicle ls).buckets :=
    fun ls => pySorted_sorted _
  refine ⟨hns lines, hold lines, hch lines, ?_, by decide⟩
  simp only [parse_couchbase_log]
  split_ifs
  · exact hns lines
  · exact hold lines
  · exact hch lines

/-- C3 (code bug): on a Chronicle dump whose bucket_names list spans
two lines, parse_couchbase_chronicle returns only the tokens of the
line carrying the closing bracket; the token b1 of the earlier line is
lost, because the loop resets its accumulated bucket_list on every line
of the section.  The same names on a single line are both returned. -/
theorem parse_couchbase_chronicle_multiline_loss :
    parse_couchbase_chronicle
        ["Chronicle dump",
         " \x7bbucket_names,\x7b[\"b1\",",
         "  \"b2\"]\x7d]\x7d,"] = ⟨["b2"]⟩ ∧
    parse_couchbase_chronicle
        ["Chronicle dump",
         " \x7bbucket_names,\x7b[\"b1\",",
         "  \"b2\"]\x7d]\x7d,"] ≠ ⟨["b1", "b2"]⟩ ∧
    parse_couchbase_chronicle
        ["Chronicle dump",
         " \x7bbucket_names,\x7b[\"b1\",\"b2\"]\x7d]\x7d,"] = ⟨["b1", "b2"]⟩ :=
  ⟨by decide, by decide, by decide⟩

/-- A successful try_get_data_source_names call returns exactly the
rendered names, and they are duplicate-free. -/
theorem try_get_data_source_names_eq_some (dirs : List String)
    (fmt : MatchGroups → String) (r : List String)
    (h : try_get_data_source_names dirs fmt = some r) :
    r = dirs.map (renderName fmt) ∧ r.Nodup := by
  simp only [try_get_data_source_names] at h
  split_ifs at h with hn
  · cases Option.some.inj h
    exact ⟨rfl, hn⟩

/-- The format-trying loop keeps the length, keeps uniqueness of a
duplicate-free input, and returns either the raw names or an
element-wise rendering under one of the candidate formats. -/
theorem get_data_source_names_go_spec (dirs : List String) (hd : dirs.Nodup)
    (fmts : List (MatchGroups → String)) :
    (get_data_source_names_go dirs fmts).length = dirs.length ∧
    (get_data_source_names_go dirs fmts).Nodup ∧
    (get_data_source_names_go dirs fmts = dirs ∨
      ∃ fmt ∈ fmts, get_data_source_names_go dirs fmts = dirs.map (renderName fmt)) := by
  induction fmts with
  | nil => exact ⟨rfl, hd, Or.inl rfl⟩
  | cons fmt rest ih =>
    rw [get_data_source_names_go]
    cases htry : try_get_data_source_names dirs fmt with
    | none =>
      obtain ⟨h1, h2, h3⟩ := ih
      refine ⟨h1, h2, ?_⟩
      rcases h3 with h | ⟨f, hf, he⟩
      · exact Or.inl h
      · exact Or.inr ⟨f, List.mem_cons_of_mem _ hf, he⟩
    | some r =>
      obtain ⟨hr, hnd⟩ := try_get_data_source_names_eq_some dirs fmt r htry
      by_cases hre : r = []
      · subst hre
        obtain ⟨h1, h2, h3⟩ := ih
        refine ⟨h1, h2, ?_⟩
        rcases h3 with h | ⟨f, hf, he⟩
        · exact Or.inl h
        · exact Or.inr ⟨f, List.mem_cons_of_mem _ hf, he⟩
      · simp only [if_neg hre]
        subst hr
        exact ⟨by simp, hnd, Or.inr ⟨fmt, List.mem_cons_self _ _, rfl⟩⟩

/-- C2: for a duplicate-free list of cbcollect directory names,
get_data_source_names returns a list of the same length that is either
the input itself or the element-wise rendering of the input under one
of the four name formats (so the i-th output names the i-th input), and
the returned list contains no duplicates. -/
theorem get_data_source_names_spec (cbcollect_dirs : List String)
    (hd : cbcollect_dirs.Nodup) :
    (get_data_source_names cbcollect_dirs).length = cbcollect_dirs.length ∧
    (get_data_source_names cbcollect_dirs).Nodup ∧
    (get_data_source_names cbcollect_dirs = cbcollect_dirs ∨
      ∃ fmt ∈ name_formats,
        get_data_source_names cbcollect_dirs =
          cbcollect_dirs.map (renderName fmt)) :=
  get_data_source_names_go_spec cbcollect_dirs hd name_formats

/-- Witness for C2 at a concrete duplicate-free input. -/
theorem get_data_source_names_spec_witness :
    (["a", "b"] : List String).Nodup ∧
    ((get_data_source_names ["a", "b"]).length =
        (["a", "b"] : List String).length ∧
      (get_data_source_names ["a", "b"]).Nodup ∧
      (get_data_source_names ["a", "b"] = ["a", "b"] ∨
        ∃ fmt ∈ name_formats,
          get_data_source_names ["a", "b"] =
            (["a", "b"] : List String).map (renderName fmt))) :=
  ⟨by decide, get_data_source_names_spec ["a", "b"] (by decide)⟩

/-- C7 counterexample: on the directory names of the claim, which do
not start with the cbcollect_info_ns_ prefix of the regex, every format
renders the raw names; those are already unique, so format 1 is
selected and the raw names are returned, not node-1@nodeA and
node-2@nodeA. -/
theorem get_data_source_names_claim_counterexample :
    get_data_source_names ["cb_ns_1@nodeA_100-200", "cb_ns_2@nodeA_100-200"] =
      ["cb_ns_1@nodeA_100-200", "cb_ns_2@nodeA_100-200"] ∧
    get_data_source_names ["cb_ns_1@nodeA_100-200", "cb_ns_2@nodeA_100-200"] ≠
      ["node-1@nodeA", "node-2@nodeA"] :=
  ⟨by decide, by decide⟩

/-- C7 amended: on directory names following the cbcollect_info naming
convention with equal host fragments, format 1 renders the colliding
pair nodeA, nodeA and is rejected, and format 2 is selected, returning
the unique names ns_1@nodeA and ns_2@nodeA. -/
theorem get_data_source_names_format2_selected :
    try_get_data_source_names
        ["cbcollect_info_ns_1@nodeA_100-200", "cbcollect_info_ns_2@nodeA_100-200"]
        format1 = none ∧
    (["cbcollect_info_ns_1@nodeA_100-200",
      "cbcollect_info_ns_2@nodeA_100-200"] : List String).map (renderName format1) =
      ["nodeA", "nodeA"] ∧
    get_data_source_names
        ["cbcollect_info_ns_1@nodeA_100-200", "cbcollect_info_ns_2@nodeA_100-200"] =
      ["ns_1@nodeA", "ns_2@nodeA"] ∧
    get_data_source_names
        ["cbcollect_info_ns_1@nodeA_100-200", "cbcollect_info_ns_2@nodeA_100-200"] =
      (["cbcollect_info_ns_1@nodeA_100-200",
        "cbcollect_info_ns_2@nodeA_100-200"] : List String).map (renderName format2) :=
  ⟨by decide, by decide, by decide, by decide⟩

/-- The fold of the binary min over a list equals the start value or a
member of the list. -/
theorem foldl_min_mem (a : ℚ) (l : List ℚ) :
    l.foldl min a = a ∨ l.foldl min a ∈ l := by
  induction l generalizing a with
  | nil => exact Or.inl rfl
  | cons b t ih =>
    simp only [List.foldl_cons]
    rcases ih (min a b) with h | h
    · rcases min_choice a b with hm | hm
      · exact Or.inl (h.trans hm)
      · exact Or.inr (by rw [h, hm]; exact List.mem_cons_self b t)
    · exact Or.inr (List.mem_cons_of_mem b h)

/-- The fold of the binary min over a list bounds the start value and
every member from below. -/
theorem foldl_min_le (a : ℚ) (l : List ℚ) :
    l.foldl min a ≤ a ∧ ∀ x ∈ l, l.foldl min a ≤ x := by
  induction l generalizing a with
  | nil => exact ⟨le_refl a, by simp⟩
  | cons b t ih =>
    simp only [List.foldl_cons]
    obtain ⟨h1, h2⟩ := ih (min a b)
    refine ⟨le_trans h1 (min_le_left a b), ?_⟩
    intro x hx
    rcases List.mem_cons.mp hx with rfl | hx
    · exact le_trans h1 (min_le_right a x)
    · exact h2 x hx

/-- The fold of the binary max over a list equals the start value or a
member of the list. -/
theorem foldl_max_mem (a : ℚ) (l : List ℚ) :
    l.foldl max a = a ∨ l.foldl max a ∈ l := by
  induction l generalizing a with
  | nil => exact Or.inl rfl
  | cons b t ih =>
    simp only [List.foldl_cons]
    rcases ih (max a b) with h | h
    · rcases max_choice a b with hm | hm
      · exact Or.inl (h.trans hm)
      · exact Or.inr (by rw [h, hm]; exact List.mem_cons_self b t)
    · exact Or.inr (List.mem_cons_of_mem b h)

/-- The fold of the binary max over a list bounds the start value and
every member from above. -/
theorem foldl_max_le (a : ℚ) (l : List ℚ) :
    a ≤ l.foldl max a ∧ ∀ x ∈ l, x ≤ l.foldl max a := by
  induction l generalizing a with
  | nil => exact ⟨le_refl a, by simp⟩
  | cons b t ih =>
    simp only [List.foldl_cons]
    obtain ⟨h1, h2⟩ := ih (max a b)
    refine ⟨le_trans (le_max_left a b) h1, ?_⟩
    intro x hx
    rcases List.mem_cons.mp hx with rfl | hx
    · exact le_trans (le_max_right a x) h1
    · exact h2 x hx

/-- C5: for a non-empty collection of shard metadata files,
get_prometheus_times returns the pair (global minimum of the minTime
fields, global maximum of the maxTime fields) converted from
milliseconds to seconds; in particular two shards with (1000, 5000) and
(2000, 9000) give (1.0, 9.0). -/
theorem get_prometheus_times_spec (metas : List ShardMeta) (h : metas ≠ []) :
    (∃ mn mx : ℚ, get_prometheus_times metas = .ok (mn, mx) ∧
      (∃ m ∈ metas, mn = (m.minTime : ℚ) / 1000) ∧
      (∃ m ∈ metas, mx = (m.maxTime : ℚ) / 1000) ∧
      (∀ m ∈ metas,
        mn ≤ (m.minTime : ℚ) / 1000 ∧ (m.maxTime : ℚ) / 1000 ≤ mx)) ∧
    get_prometheus_times [⟨1000, 5000⟩, ⟨2000, 9000⟩] =
      .ok ((1 : ℚ), (9 : ℚ)) := by
  constructor
  · match metas, h with
    | m0 :: rest, _ =>
      refine ⟨(rest.map (fun m : ShardMeta => (m.minTime : ℚ) / 1000)).foldl min
          ((m0.minTime : ℚ) / 1000),
        (rest.map (fun m : ShardMeta => (m.maxTime : ℚ) / 1000)).foldl max
          ((m0.maxTime : ℚ) / 1000), rfl, ?_, ?_, ?_⟩
      · rcases foldl_min_mem ((m0.minTime : ℚ) / 1000)
            (rest.map (fun m : ShardMeta => (m.minTime : ℚ) / 1000)) with h | h
        · exact ⟨m0, List.mem_cons_self _ _, h⟩
        · obtain ⟨m, hm, he⟩ := List.mem_map.mp h
          exact ⟨m, List.mem_cons_of_mem _ hm, he.symm⟩
      · rcases foldl_max_mem ((m0.maxTime : ℚ) / 1000)
            (rest.map (fun m : ShardMeta => (m.maxTime : ℚ) / 1000)) with h | h
        · exact ⟨m0, List.mem_cons_self _ _, h⟩
        · obtain ⟨m, hm, he⟩ := List.mem_map.mp h
          exact ⟨m, List.mem_cons_of_mem _ hm, he.symm⟩
      · intro m hm
        obtain ⟨hmin1, hmin2⟩ := foldl_min_le ((m0.minTime : ℚ) / 1000)
          (rest.map (fun m : ShardMeta => (m.minTime : ℚ) / 1000))
        obtain ⟨hmax1, hmax2⟩ := foldl_max_le ((m0.maxTime : ℚ) / 1000)
          (rest.map (fun m : ShardMeta => (m.maxTime : ℚ) / 1000))
        rcases List.mem_cons.mp hm with rfl | hm
        · exact ⟨hmin1, hmax1⟩
        · exact ⟨hmin2 _ (List.mem_map_of_mem _ hm),
            hmax2 _ (List.mem_map_of_mem _ hm)⟩
  · norm_num [get_prometheus_times, pyMin, pyMax, min_def, max_def]

/-- Witness for C5 at the two-shard input of the claim. -/
theorem get_prometheus_times_spec_witness :
    ([⟨1000, 5000⟩, ⟨2000, 9000⟩] : List ShardMeta) ≠ [] ∧
    ((∃ mn mx : ℚ,
        get_prometheus_times [⟨1000, 5000⟩, ⟨2000, 9000⟩] = .ok (mn, mx) ∧
        (∃ m ∈ ([⟨1000, 5000⟩, ⟨2000, 9000⟩] : List ShardMeta),
          mn = (m.minTime : ℚ) / 1000) ∧
        (∃ m ∈ ([⟨1000, 5000⟩, ⟨2000, 9000⟩] : List ShardMeta),
          mx = (m.maxTime : ℚ) / 1000) ∧
        (∀ m ∈ ([⟨1000, 5000⟩, ⟨2000, 9000⟩] : List ShardMeta),
          mn ≤ (m.minTime : ℚ) / 1000 ∧ (m.maxTime : ℚ) / 1000 ≤ mx)) ∧
      get_prometheus_times [⟨1000, 5000⟩, ⟨2000, 9000⟩] =
        .ok ((1 : ℚ), (9 : ℚ))) :=
  ⟨by decide, get_prometheus_times_spec [⟨1000, 5000⟩, ⟨2000, 9000⟩] (by decide)⟩

/-- C6 counterexample: with no shard metadata files the estimator does
not produce a handled no-range outcome: min of the empty list raises
ValueError, and CBCollect.get_min_and_max_times passes the exception to
its caller unhandled. -/
theorem get_prometheus_times_empty_counterexample :
    get_prometheus_times [] = .error PyErr.valueError ∧
    CBCollect.get_min_and_max_times [] = .error PyErr.valueError :=
  ⟨rfl, rfl⟩

/-- C6 amended: whenever the snapshot directory yields no metadata
files, get_prometheus_times raises ValueError (min of an empty
sequence) and the exception propagates unhandled through
CBCollect.get_min_and_max_times. -/
theorem get_prometheus_times_empty_raises (metas : List ShardMeta)
    (h : metas = []) :
    get_prometheus_times metas = .error PyErr.valueError ∧
    CBCollect.get_min_and_max_times metas = .error PyErr.valueError := by
  subst h
  exact ⟨rfl, rfl⟩

/-- Witness for the amended C6 statement. -/
theorem get_prometheus_times_empty_raises_witness :
    ([] : List ShardMeta) = [] ∧
    (get_prometheus_times [] = .error PyErr.valueError ∧
      CBCollect.get_min_and_max_times [] = .error PyErr.valueError) :=
  ⟨rfl, get_prometheus_times_empty_raises [] rfl⟩

/-- C4 counterexample: a failing buckets request does not yield the
empty list from ServerNode.get_buckets; the method has no handler, so
the OSError outcome is returned to (that is, raised at) the caller. -/
theorem ServerNode_get_buckets_counterexample :
    ServerNode.get_buckets (.error "connection refused") =
      .error "connection refused" ∧
    ServerNode.get_buckets (.error "connection refused") ≠
      .ok ([] : List String) :=
  ⟨rfl, by decide⟩

/-- C4 amended: a network or authentication failure propagates out of
ServerNode.get_buckets unchanged; it is the topology request of
ServerNode.get_stats_sources whose failure is logged and turned into an
empty list. -/
theorem ServerNode_get_buckets_propagates (e user password : String) :
    ServerNode.get_buckets (.error e) = .error e ∧
    ServerNode.get_stats_sources (.error e) user password = [] :=
  ⟨rfl, rfl⟩

/-- C9: the first get_buckets call of an archived source runs
parse_couchbase_log and caches the parsed config, also when the parsed
bucket list is empty (the cache field becomes some value, never None
again), and every call with a filled cache returns the cached buckets
with the parser not run. -/
theorem CBCollect_get_buckets_memoized (log_lines : List String) :
    (CBCollect.get_buckets_step log_lines none).2.2 = true ∧
    (CBCollect.get_buckets_step log_lines none).2.1 =
      some (parse_couchbase_log log_lines) ∧
    (CBCollect.get_buckets_step log_lines none).2.1 ≠ none ∧
    (∀ c : Config,
      CBCollect.get_buckets_step log_lines (some c) =
        (c.buckets, some c, false)) ∧
    CBCollect.get_buckets_step log_lines
        (CBCollect.get_buckets_step log_lines none).2.1 =
      ((CBCollect.get_buckets_step log_lines none).1,
        (CBCollect.get_buckets_step log_lines none).2.1, false) :=
  ⟨rfl, rfl, by simp [CBCollect.get_buckets_step], fun c => rfl, rfl⟩

/-- C10: in live discovery, a nodesExt entry without a hostname field
produces a ServerNode whose host is 127.0.0.1 and whose port is still
that entry's services.mgmt value, and the loop keeps that node in the
constructed source list. -/
theorem ServerNode_get_stats_sources_default_host (nodes : List NodeExt)
    (user password : String) (node : NodeExt)
    (hmem : node ∈ nodes) (hh : node.hostname = none) :
    ServerNode.get_stats_sources (.ok nodes) user password =
      nodes.map (mkServerNode user password) ∧
    (mkServerNode user password node).cluster_host = "127.0.0.1" ∧
    (mkServerNode user password node).port = node.services.mgmt ∧
    mkServerNode user password node ∈
      ServerNode.get_stats_sources (.ok nodes) user password := by
  refine ⟨rfl, ?_, rfl, ?_⟩
  · simp [mkServerNode, hh]
  · exact List.mem_map_of_mem _ hmem

/-- Witness for C10 at a one-node response without a hostname. -/
theorem ServerNode_get_stats_sources_default_host_witness :
    (⟨none, ⟨8091⟩⟩ : NodeExt) ∈ [(⟨none, ⟨8091⟩⟩ : NodeExt)] ∧
    (⟨none, ⟨8091⟩⟩ : NodeExt).hostname = none ∧
    (ServerNode.get_stats_sources (.ok [⟨none, ⟨8091⟩⟩]) "u" "p" =
        [(⟨none, ⟨8091⟩⟩ : NodeExt)].map (mkServerNode "u" "p") ∧
      (mkServerNode "u" "p" ⟨none, ⟨8091⟩⟩).cluster_host = "127.0.0.1" ∧
      (mkServerNode "u" "p" ⟨none, ⟨8091⟩⟩).port =
        (⟨none, ⟨8091⟩⟩ : NodeExt).services.mgmt ∧
      mkServerNode "u" "p" ⟨none, ⟨8091⟩⟩ ∈
        ServerNode.get_stats_sources (.ok [⟨none, ⟨8091⟩⟩]) "u" "p") :=
  ⟨List.mem_singleton.mpr rfl, rfl,
    ServerNode_get_stats_sources_default_host _ "u" "p" _
      (List.mem_singleton.mpr rfl) rfl⟩
